import Mathlib

/-!
# LeoLogic file-organization engine: verified shallow embedding

This file embeds, in Lean 4, the parts of the LeoLogic repository that the
specification's claims talk about:

* the per-folder filesystem watcher (`FileHandler.on_created`,
  `FileHandler.on_modified`, `FileHandler.process_pending_files`,
  `start_watching`, `stop_watching`) — a Python module whose pending set is a
  dict from file path to last-event timestamp;
* the client-side progress poller and the confidence-threshold round trip
  (React frontend, `startProgressPolling`, `loadBackendThreshold`,
  `saveThresholdToBackend`);
* the watched-folder status toggle (`handleToggleFolderStatus`);
* the DecisionEngine `decide` contract (modelled from the spec, since its
  implementation is not among the available source files).

Timestamps (Python `time.time()` values) are modelled as rationals, Python
dicts as association lists with unique keys maintained by the update
operations, and Python exceptions as `Except`.
-/

set_option autoImplicit false

namespace LeoLogic

/-! ## Association-list maps (Python `dict` semantics) -/

section AssocMap

variable {κ ν : Type} [DecidableEq κ]

/-- `d.get k` — dict lookup, `none` when the key is absent. -/
def getKey : List (κ × ν) → κ → Option ν
  | [], _ => none
  | (k, v) :: rest, q => if k = q then some v else getKey rest q

/-- `d[k] = v` — dict assignment: overwrite in place if the key is present,
append otherwise (Python dicts keep insertion order). -/
def setKey : List (κ × ν) → κ → ν → List (κ × ν)
  | [], q, v => [(q, v)]
  | (k, w) :: rest, q, v =>
      if k = q then (q, v) :: rest else (k, w) :: setKey rest q v

/-- `del d[k]` — remove every entry with the given key. -/
def delKey : List (κ × ν) → κ → List (κ × ν)
  | [], _ => []
  | (k, w) :: rest, q =>
      if k = q then delKey rest q else (k, w) :: delKey rest q

/-- The keys of the map, in order. -/
def keysOf (d : List (κ × ν)) : List κ := d.map Prod.fst

@[simp] theorem getKey_nil (q : κ) : getKey ([] : List (κ × ν)) q = none := rfl

@[simp] theorem getKey_cons (k q : κ) (v : ν) (rest : List (κ × ν)) :
    getKey ((k, v) :: rest) q = if k = q then some v else getKey rest q := rfl

theorem getKey_setKey_self (d : List (κ × ν)) (q : κ) (v : ν) :
    getKey (setKey d q v) q = some v := by
  induction d with
  | nil => simp [setKey]
  | cons hd tl ih =>
      obtain ⟨k, w⟩ := hd
      by_cases hk : k = q <;> simp [setKey, hk, ih]

theorem getKey_setKey_ne (d : List (κ × ν)) (q r : κ) (v : ν) (hqr : q ≠ r) :
    getKey (setKey d q v) r = getKey d r := by
  induction d with
  | nil => simp [setKey, hqr]
  | cons hd tl ih =>
      obtain ⟨k, w⟩ := hd
      by_cases hk : k = q
      · subst hk; simp [setKey, hqr]
      · simp [setKey, hk, ih]

theorem getKey_delKey_self (d : List (κ × ν)) (q : κ) :
    getKey (delKey d q) q = none := by
  induction d with
  | nil => simp [delKey]
  | cons hd tl ih =>
      obtain ⟨k, w⟩ := hd
      by_cases hk : k = q <;> simp [delKey, hk, ih]

theorem getKey_delKey_ne (d : List (κ × ν)) (q r : κ) (hqr : q ≠ r) :
    getKey (delKey d q) r = getKey d r := by
  induction d with
  | nil => simp [delKey]
  | cons hd tl ih =>
      obtain ⟨k, w⟩ := hd
      by_cases hk : k = q
      · subst hk; simp [delKey, hqr, ih]
      · simp [delKey, hk, ih]

theorem getKey_setKey_isSome (d : List (κ × ν)) (q : κ) (v : ν) (r : κ) :
    (getKey (setKey d q v) r).isSome → (getKey d r).isSome ∨ r = q := by
  by_cases hrq : r = q
  · intro _; right; exact hrq
  · rw [getKey_setKey_ne d q r v (fun h => hrq h.symm)]
    intro h; left; exact h

end AssocMap

/-! ## FileHandler: debounced pending set (src/unnamed/part_018)

`FileHandler.__init__` sets `processing_delay = 1.0` and `pending_files = {}`,
a dict from file path to the timestamp of the last filesystem event. -/

/-- The pending-file state of one `FileHandler`: path → last event time. -/
abbrev PendingMap := List (String × ℚ)

/-- `self.processing_delay = 1.0`: wait 1 second before processing. -/
def processing_delay : ℚ := 1

/-- A watchdog filesystem event as the handler sees it. -/
structure FsEvent where
  src_path : String
  is_directory : Bool
  deriving DecidableEq

/-- `FileHandler.on_created`: ignore directory events; otherwise record the
event path in the pending dict with the current time
(`self.pending_files[file_path] = time.time()`). -/
def on_created (pending : PendingMap) (event : FsEvent) (now : ℚ) : PendingMap :=
  if event.is_directory then pending
  else setKey pending event.src_path now

/-- `FileHandler.on_modified`: ignore directory events; update the timestamp
only when the path is already pending (`if file_path in self.pending_files`). -/
def on_modified (pending : PendingMap) (event : FsEvent) (now : ℚ) : PendingMap :=
  if event.is_directory then pending
  else if (getKey pending event.src_path).isSome then
    setKey pending event.src_path now
  else pending

/-- The selection loop inside `FileHandler.process_pending_files`: iterate over
a snapshot of the dict items, append every entry whose last event is at least
`delay` old to `files_to_process` and delete it from the dict; every younger
entry is kept untouched. Returns (files_to_process, remaining pending dict). -/
def collectDue : PendingMap → ℚ → ℚ → List String × PendingMap
  | [], _, _ => ([], [])
  | (p, t) :: rest, now, delay =>
      let acc := collectDue rest now delay
      if delay ≤ now - t then (p :: acc.1, acc.2)
      else (acc.1, (p, t) :: acc.2)

/-- The dispatch loop inside `FileHandler.process_pending_files`: for each
collected file, skip it unless `Path(file_path).exists()`, otherwise run
`process_file` inside `try/except` — an exception is caught and reported and
the loop moves on to the next file. Returns each processed file with the
outcome of its `process_file` call. -/
def dispatchFiles (files : List String) (pathExists : String → Bool)
    (process_file : String → Except String Unit) :
    List (String × Except String Unit) :=
  match files with
  | [] => []
  | f :: rest =>
      if pathExists f then
        match process_file f with
        | Except.ok u =>
            (f, Except.ok u) :: dispatchFiles rest pathExists process_file
        | Except.error e =>
            (f, Except.error e) :: dispatchFiles rest pathExists process_file
      else dispatchFiles rest pathExists process_file

/-- Result of one periodic scan of `FileHandler.process_pending_files`. -/
structure ScanResult where
  dispatched : List String
  newPending : PendingMap
  processed : List (String × Except String Unit)

/-- `FileHandler.process_pending_files`: collect and remove the due entries,
then dispatch each still-existing file through `process_file`, isolating
per-file exceptions. -/
def process_pending_files (pending : PendingMap) (now delay : ℚ)
    (pathExists : String → Bool)
    (process_file : String → Except String Unit) : ScanResult :=
  let acc := collectDue pending now delay
  { dispatched := acc.1
    newPending := acc.2
    processed := dispatchFiles acc.1 pathExists process_file }

theorem collectDue_eq_filter (pending : PendingMap) (now delay : ℚ) :
    collectDue pending now delay =
      ((pending.filter fun pt => decide (delay ≤ now - pt.2)).map Prod.fst,
        pending.filter fun pt => decide (now - pt.2 < delay)) := by
  induction pending with
  | nil => simp [collectDue]
  | cons hd tl ih =>
      obtain ⟨p, t⟩ := hd
      by_cases hdue : delay ≤ now - t
      · simp [collectDue, ih, hdue, List.filter, not_lt.mpr hdue]
      · simp [collectDue, ih, hdue, List.filter, lt_of_not_le hdue]

theorem dispatchFiles_eq_map (files : List String) (pathExists : String → Bool)
    (process_file : String → Except String Unit) :
    dispatchFiles files pathExists process_file =
      (files.filter pathExists).map fun f => (f, process_file f) := by
  induction files with
  | nil => simp [dispatchFiles]
  | cons f rest ih =>
      by_cases hex : pathExists f
      · cases hpf : process_file f <;>
          simp [dispatchFiles, hex, hpf, List.filter, ih]
      · simp [dispatchFiles, hex, List.filter, ih]

/-! ## Watcher registry: start_watching / stop_watching (src/unnamed/part_018)

`state.observers` is a dict keyed by folder id; each value holds the watchdog
observer together with its `FileHandler`. The observer object itself carries
no state the claims mention, so an entry is modelled as the handler state plus
the watched path. -/

/-- One entry of `state.observers`: the `FileHandler` state plus the path the
observer was scheduled on. -/
structure ObserverEntry where
  handlerFolderId : ℤ
  handlerPending : PendingMap
  watchedPath : String
  deriving DecidableEq

/-- The `state.observers` registry, keyed by folder id. -/
abbrev Observers := List (ℤ × ObserverEntry)

/-- The three ways `start_watching` can end: an early return with the
"Already watching" warning, an early return with the "Folder does not exist"
message, or a successful registration. -/
inductive StartOutcome where
  | alreadyWatching
  | pathNotFound
  | started
  deriving DecidableEq

/-- `start_watching(folder_id, folder_path)`: return early if `folder_id in
state.observers`; return early if the path does not exist; otherwise build a
fresh `FileHandler`, schedule and start an observer, and record both under
`folder_id` in `state.observers`. The filesystem check is the ambient
`Path(folder_path).exists()`. -/
def start_watching (observers : Observers) (pathExists : String → Bool)
    (folder_id : ℤ) (folder_path : String) : StartOutcome × Observers :=
  if (getKey observers folder_id).isSome then
    (StartOutcome.alreadyWatching, observers)
  else if pathExists folder_path = false then
    (StartOutcome.pathNotFound, observers)
  else
    (StartOutcome.started,
      setKey observers folder_id
        { handlerFolderId := folder_id
          handlerPending := []
          watchedPath := folder_path })

/-- `stop_watching(folder_id)`: return immediately if `folder_id not in
state.observers`; otherwise stop and join the observer and delete the
registry entry. -/
def stop_watching (observers : Observers) (folder_id : ℤ) : Observers :=
  if (getKey observers folder_id).isSome then delKey observers folder_id
  else observers

/-! ## DecisionEngine (modelled from the spec)

The DecisionEngine implementation is not among the available source files;
only the spec describes it. -/

/-- `EngineSettings.fallbackBehavior ∈ {SkipFile, MoveToReview}`. -/
inductive FallbackBehavior where
  | SkipFile
  | MoveToReview
  deriving DecidableEq

/-- A `ClassificationResult` as the DecisionEngine reads it: media type,
category guess, and a confidence in `[0, 1]`. -/
structure ClassificationResult where
  mediaType : String
  categoryGuess : String
  confidence : ℚ
  deriving DecidableEq

/-- The action returned by `decide`: move to the guessed category, or one of
the two fallbacks (`SkipFile` leaves the file untouched and tallies as
low-confidence; `MoveToReview` routes to the reserved review category). -/
inductive DecisionAction where
  | Move (category : String)
  | SkipLowConfidence
  | RouteToReview
  deriving DecidableEq

/-- The action a fallback policy produces. -/
def fallbackAction : FallbackBehavior → DecisionAction
  | FallbackBehavior.SkipFile => DecisionAction.SkipLowConfidence
  | FallbackBehavior.MoveToReview => DecisionAction.RouteToReview

/-- Modelled from the spec: the DecisionEngine's
`decide(result, thresholdForMediaType, fallback)` (its implementation is not
among the available source files). "Action is Move iff
`confidence*100 ≥ thresholdForMediaType`, else the configured Fallback." Pure,
deterministic, no I/O. -/
def DecisionEngine.decide (result : ClassificationResult)
    (thresholdForMediaType : ℚ) (fallback : FallbackBehavior) : DecisionAction :=
  if thresholdForMediaType ≤ result.confidence * 100 then
    DecisionAction.Move result.categoryGuess
  else fallbackAction fallback

/-- Whether an action is a Move. -/
def DecisionAction.isMove : DecisionAction → Bool
  | DecisionAction.Move _ => true
  | _ => false

/-! ## Client-side progress poller (src/unnamed/part_004, startProgressPolling)

Each poll tick fetches a progress snapshot, normalises missing fields to 0,
and stops the interval precisely when
`updated[folderId].total > 0 && totalProcessed >= updated[folderId].total`,
where `totalProcessed = completed + failed`. -/

/-- A normalised progress snapshot (`completed`, `total`, `failed`,
`in_progress`, each defaulted to 0). -/
structure ProgressSnapshot where
  completed : ℕ
  total : ℕ
  failed : ℕ
  in_progress : ℕ
  deriving DecidableEq

/-- The poller's stop test from `startProgressPolling`:
`total > 0 && completed + failed >= total`. -/
def pollStopCondition (s : ProgressSnapshot) : Bool :=
  decide (0 < s.total) && decide (s.total ≤ s.completed + s.failed)

/-- The polling loop: at tick `i` fetch snapshot `snaps i`; clear the interval
when the stop test holds, otherwise keep polling. `fuel` bounds how many ticks
we unfold; the result is the tick at which polling stopped, if any. -/
def pollLoop (snaps : ℕ → ProgressSnapshot) : ℕ → ℕ → Option ℕ
  | 0, _ => none
  | fuel + 1, i =>
      if pollStopCondition (snaps i) then some i
      else pollLoop snaps fuel (i + 1)

/-! ## Confidence-threshold round trip (src/unnamed/part_004) -/

/-- `saveThresholdToBackend`: the UI percentage is sent to the backend as
`threshold / 100`. -/
def saveThresholdToBackend (threshold : ℤ) : ℚ := (threshold : ℚ) / 100

/-- `loadBackendThreshold`: the stored decimal comes back as
`Math.round(response.threshold * 100)`. -/
def loadBackendThreshold (threshold : ℚ) : ℤ := round (threshold * 100)

/-! ## Watched-folder status toggle
(src/src/components/tabs/FileExplorer.jsx, handleToggleFolderStatus) -/

/-- A watched folder as the frontend list holds it. Only `id` and `status`
matter to the toggle; the remaining fields stand for the rest of the object,
which the toggle spreads through unchanged. -/
structure WatchedFolder where
  id : ℕ
  name : String
  path : String
  status : String
  deriving DecidableEq

/-- The status update applied to the matching folder:
`folder.status === 'Active' ? 'Paused' : 'Active'`. -/
def toggledStatus (status : String) : String :=
  if status = "Active" then "Paused" else "Active"

/-- The optimistic local update in `handleToggleFolderStatus`: map over the
folder list, flipping the status of every folder whose id matches and
spreading every other folder through unchanged. -/
def handleToggleFolderStatus (folders : List WatchedFolder)
    (folderId : ℕ) : List WatchedFolder :=
  folders.map fun folder =>
    if folder.id = folderId then
      { folder with status := toggledStatus folder.status }
    else folder

/-! ## Claim theorems -/

/-- C1: `decide` is a pure function of its three arguments (it is a Lean
function, hence deterministic and free of I/O); the returned action is a Move
(to the guessed category) iff `confidence * 100 ≥ thresholdForMediaType`, and
otherwise it is exactly the action of the configured fallback policy. -/
theorem decide_move_iff_threshold (result : ClassificationResult)
    (thresholdForMediaType : ℚ) (fallback : FallbackBehavior) :
    ((DecisionEngine.decide result thresholdForMediaType fallback).isMove = true
        ↔ thresholdForMediaType ≤ result.confidence * 100)
    ∧ (thresholdForMediaType ≤ result.confidence * 100 →
        DecisionEngine.decide result thresholdForMediaType fallback
          = DecisionAction.Move result.categoryGuess)
    ∧ (result.confidence * 100 < thresholdForMediaType →
        DecisionEngine.decide result thresholdForMediaType fallback
          = fallbackAction fallback) := by
  unfold DecisionEngine.decide
  by_cases h : thresholdForMediaType ≤ result.confidence * 100
  · refine ⟨?_, ?_, ?_⟩
    · simp [h, DecisionAction.isMove]
    · intro _; simp [h]
    · intro hlt; exact absurd h (not_le.mpr hlt)
  · refine ⟨?_, ?_, ?_⟩
    · cases fallback <;> simp [h, DecisionAction.isMove, fallbackAction]
    · intro hle; exact absurd hle h
    · intro _; simp [h]

/-- C1 witness: a 60%-confidence image against threshold 80 with fallback
`SkipFile` is not moved and lands on the skip fallback; a 90%-confidence text
against threshold 85 is moved. -/
theorem decide_move_iff_threshold_witness :
    DecisionEngine.decide ⟨"image", "Pictures", 6/10⟩ 80 FallbackBehavior.SkipFile
        = fallbackAction FallbackBehavior.SkipFile
    ∧ DecisionEngine.decide ⟨"text", "Documents", 9/10⟩ 85 FallbackBehavior.SkipFile
        = DecisionAction.Move "Documents" :=
  ⟨(decide_move_iff_threshold ⟨"image", "Pictures", 6/10⟩ 80
      FallbackBehavior.SkipFile).2.2 (by norm_num),
    (decide_move_iff_threshold ⟨"text", "Documents", 9/10⟩ 85
      FallbackBehavior.SkipFile).2.1 (by norm_num)⟩

/-- C2: one scan of `process_pending_files` dispatches exactly the pending
entries whose last event is at least `processing_delay` (1s) old, the new
pending set is exactly the younger entries with their timestamps untouched,
and per-file processing runs exactly on the dispatched paths that still exist
on disk. -/
theorem process_pending_files_scan_spec (pending : PendingMap) (now : ℚ)
    (pathExists : String → Bool)
    (process_file : String → Except String Unit) :
    let r := process_pending_files pending now processing_delay pathExists process_file
    r.dispatched
        = ((pending.filter fun pt =>
            decide (processing_delay ≤ now - pt.2)).map Prod.fst)
    ∧ r.newPending
        = (pending.filter fun pt => decide (now - pt.2 < processing_delay))
    ∧ r.processed
        = ((r.dispatched.filter pathExists).map fun f => (f, process_file f)) := by
  refine ⟨?_, ?_, ?_⟩
  · simp [process_pending_files, collectDue_eq_filter]
  · simp [process_pending_files, collectDue_eq_filter]
  · simp [process_pending_files, dispatchFiles_eq_map]

/-- C3 counterexample: a modify event for a path that is not yet pending does
NOT create a pending entry — `on_modified` leaves the empty pending set
empty, so the claimed upsert does not happen. -/
theorem on_modified_no_upsert_counterexample :
    on_modified [] ⟨"/watched/new.txt", false⟩ 5 = ([] : PendingMap)
    ∧ getKey (on_modified [] ⟨"/watched/new.txt", false⟩ 5) "/watched/new.txt"
        = none := by
  constructor <;> rfl

/-- C3 (amended): a create event on a non-directory path upserts the path's
pending entry with the current time; a modify event refreshes the timestamp
only when the path is already pending, and leaves the pending set unchanged
when it is not. -/
theorem on_event_pending_update (pending : PendingMap) (event : FsEvent)
    (now : ℚ) (hfile : event.is_directory = false) :
    getKey (on_created pending event now) event.src_path = some now
    ∧ ((getKey pending event.src_path).isSome = true →
        getKey (on_modified pending event now) event.src_path = some now)
    ∧ ((getKey pending event.src_path).isSome = false →
        on_modified pending event now = pending) := by
  refine ⟨?_, ?_, ?_⟩
  · simp [on_created, hfile, getKey_setKey_self]
  · intro hpend
    simp [on_modified, hfile, hpend, getKey_setKey_self]
  · intro hpend
    simp [on_modified, hfile, hpend]

/-- C3 (amended) witness: with `a.txt` pending at time 1, a create of `b.txt`
inserts it at time 2, a modify of `a.txt` refreshes it to time 2, and a modify
of the non-pending `c.txt` changes nothing. -/
theorem on_event_pending_update_witness :
    getKey (on_created [("/w/a.txt", (1 : ℚ))] ⟨"/w/b.txt", false⟩ 2) "/w/b.txt"
        = some 2
    ∧ getKey (on_modified [("/w/a.txt", (1 : ℚ))] ⟨"/w/a.txt", false⟩ 2) "/w/a.txt"
        = some 2
    ∧ on_modified [("/w/a.txt", (1 : ℚ))] ⟨"/w/c.txt", false⟩ 2
        = [("/w/a.txt", (1 : ℚ))] :=
  ⟨(on_event_pending_update [("/w/a.txt", 1)] ⟨"/w/b.txt", false⟩ 2 rfl).1,
    (on_event_pending_update [("/w/a.txt", 1)] ⟨"/w/a.txt", false⟩ 2 rfl).2.1
      (by decide),
    (on_event_pending_update [("/w/a.txt", 1)] ⟨"/w/c.txt", false⟩ 2 rfl).2.2
      (by decide)⟩

/-- C4: `start_watching` returns `alreadyWatching` with the registry unchanged
when the folder id is already registered, returns `pathNotFound` with the
registry unchanged when the path does not exist, and otherwise reports
`started`, records a fresh handler (empty pending set) under the folder id,
and touches no other registry entry. -/
theorem start_watching_spec (observers : Observers)
    (pathExists : String → Bool) (folder_id : ℤ) (folder_path : String) :
    ((getKey observers folder_id).isSome = true →
      start_watching observers pathExists folder_id folder_path
        = (StartOutcome.alreadyWatching, observers))
    ∧ ((getKey observers folder_id).isSome = false →
        pathExists folder_path = false →
        start_watching observers pathExists folder_id folder_path
          = (StartOutcome.pathNotFound, observers))
    ∧ ((getKey observers folder_id).isSome = false →
        pathExists folder_path = true →
        (start_watching observers pathExists folder_id folder_path).1
            = StartOutcome.started
        ∧ getKey (start_watching observers pathExists folder_id folder_path).2
              folder_id
            = some { handlerFolderId := folder_id, handlerPending := [],
                     watchedPath := folder_path }
        ∧ ∀ k, k ≠ folder_id →
            getKey (start_watching observers pathExists folder_id folder_path).2 k
              = getKey observers k) := by
  refine ⟨?_, ?_, ?_⟩
  · intro hlive; simp [start_watching, hlive]
  · intro hfree hmissing; simp [start_watching, hfree, hmissing]
  · intro hfree hexists
    refine ⟨?_, ?_, ?_⟩
    · simp [start_watching, hfree, hexists]
    · simp [start_watching, hfree, hexists, getKey_setKey_self]
    · intro k hk
      simp only [start_watching, hfree, hexists]
      simp [getKey_setKey_ne _ folder_id k _ (fun h => hk h.symm)]

/-- C4 witness: starting folder 7 on an existing path with an empty registry
succeeds and registers it; starting it again reports `alreadyWatching`;
starting folder 8 on a missing path reports `pathNotFound` and leaves the
registry empty. -/
theorem start_watching_spec_witness :
    (start_watching [] (fun _ => true) 7 "/w").1 = StartOutcome.started
    ∧ getKey (start_watching [] (fun _ => true) 7 "/w").2 7
        = some ⟨7, [], "/w"⟩
    ∧ start_watching [((7 : ℤ), (⟨7, [], "/w"⟩ : ObserverEntry))]
          (fun _ => true) 7 "/w"
        = (StartOutcome.alreadyWatching,
            [((7 : ℤ), (⟨7, [], "/w"⟩ : ObserverEntry))])
    ∧ start_watching [] (fun _ => false) 8 "/gone"
        = (StartOutcome.pathNotFound, []) :=
  ⟨((start_watching_spec [] (fun _ => true) 7 "/w").2.2 (by decide) rfl).1,
    ((start_watching_spec [] (fun _ => true) 7 "/w").2.2 (by decide) rfl).2.1,
    (start_watching_spec [((7 : ℤ), (⟨7, [], "/w"⟩ : ObserverEntry))]
        (fun _ => true) 7 "/w").1 (by decide),
    (start_watching_spec [] (fun _ => false) 8 "/gone").2.1 (by decide) rfl⟩

/-- C5 counterexample: the snapshot of a job with `total = 0` satisfies
`completed + failed ≥ total`, yet the poller's stop test is false — its guard
requires `total > 0` — so polling never stops for such a job: one hundred
ticks of all-zero snapshots leave the interval running. -/
theorem polling_total_zero_counterexample :
    (⟨0, 0, 0, 0⟩ : ProgressSnapshot).total
        ≤ (⟨0, 0, 0, 0⟩ : ProgressSnapshot).completed
            + (⟨0, 0, 0, 0⟩ : ProgressSnapshot).failed
    ∧ pollStopCondition ⟨0, 0, 0, 0⟩ = false
    ∧ pollLoop (fun _ => ⟨0, 0, 0, 0⟩) 100 0 = none := by
  refine ⟨le_refl 0, rfl, ?_⟩
  decide

/-- C5 (amended): the poller keeps polling while `completed + failed < total`,
and it stops at a snapshot exactly when `total > 0` AND
`completed + failed ≥ total`; a job whose snapshots keep `total = 0` is never
stopped by this test. -/
theorem polling_stop_spec (s : ProgressSnapshot)
    (snaps : ℕ → ProgressSnapshot) (fuel i : ℕ) :
    (pollStopCondition s = true ↔
        0 < s.total ∧ s.total ≤ s.completed + s.failed)
    ∧ (s.completed + s.failed < s.total → pollStopCondition s = false)
    ∧ (s.total = 0 → pollStopCondition s = false)
    ∧ (pollStopCondition (snaps i) = true →
        pollLoop snaps (fuel + 1) i = some i)
    ∧ (pollStopCondition (snaps i) = false →
        pollLoop snaps (fuel + 1) i = pollLoop snaps fuel (i + 1)) := by
  refine ⟨?_, ?_, ?_, ?_, ?_⟩
  · simp [pollStopCondition]
  · intro hlt
    simp [pollStopCondition, not_le.mpr hlt]
  · intro hz
    simp [pollStopCondition, hz]
  · intro hstop
    simp [pollLoop, hstop]
  · intro hgo
    simp [pollLoop, hgo]

/-- C5 (amended) witness: a snapshot with 2 completed, 1 failed out of 3 stops
the poll at the current tick; a snapshot with 1 of 3 done keeps polling. -/
theorem polling_stop_spec_witness :
    pollStopCondition ⟨2, 3, 1, 0⟩ = true
    ∧ pollLoop (fun _ => ⟨2, 3, 1, 0⟩) 5 0 = some 0
    ∧ pollStopCondition ⟨1, 3, 0, 2⟩ = false :=
  ⟨(polling_stop_spec ⟨2, 3, 1, 0⟩ (fun _ => ⟨2, 3, 1, 0⟩) 4 0).1.mpr
      (by decide),
    (polling_stop_spec ⟨2, 3, 1, 0⟩ (fun _ => ⟨2, 3, 1, 0⟩) 4 0).2.2.2.1
      (by decide),
    (polling_stop_spec ⟨1, 3, 0, 2⟩ (fun _ => ⟨1, 3, 0, 2⟩) 4 0).2.1
      (by decide)⟩

/-- C6: per-file failures are isolated in the dispatch loop — every dispatched
file that exists on disk gets its `process_file` outcome recorded in the scan
result (error or not, independent of what other files raised), and the pruned
pending set and dispatched list do not depend on `process_file` at all, so the
scan as a whole never aborts on a raising file. -/
theorem scan_isolates_file_failures (pending : PendingMap) (now : ℚ)
    (pathExists : String → Bool)
    (process_file : String → Except String Unit) :
    let r := process_pending_files pending now processing_delay pathExists process_file
    (∀ f, f ∈ r.dispatched → pathExists f = true →
        (f, process_file f) ∈ r.processed)
    ∧ ∀ pf2 : String → Except String Unit,
        (process_pending_files pending now processing_delay pathExists
            pf2).newPending = r.newPending
        ∧ (process_pending_files pending now processing_delay pathExists
            pf2).dispatched = r.dispatched := by
  refine ⟨?_, ?_⟩
  · intro f hmem hex
    simp only [process_pending_files, dispatchFiles_eq_map] at *
    exact List.mem_map.mpr ⟨f, List.mem_filter.mpr ⟨hmem, hex⟩, rfl⟩
  · intro pf2
    exact ⟨rfl, rfl⟩

/-- C6 witness: with `a` and `b` both due and `process_file` raising on `a`,
the scan still records `b`'s successful outcome and still empties the pending
set. -/
theorem scan_isolates_file_failures_witness :
    ("/w/b", Except.ok ())
        ∈ (process_pending_files [("/w/a", 0), ("/w/b", 0)] 5 processing_delay
            (fun _ => true)
            (fun f => if f = "/w/a" then Except.error "boom" else Except.ok ())).processed
    ∧ (process_pending_files [("/w/a", 0), ("/w/b", 0)] 5 processing_delay
          (fun _ => true)
          (fun f => if f = "/w/a" then Except.error "boom" else Except.ok ())).newPending
        = [] := by
  constructor
  · have h := (scan_isolates_file_failures [("/w/a", 0), ("/w/b", 0)] 5
      (fun _ => true)
      (fun f => if f = "/w/a" then Except.error "boom" else Except.ok ())).1
      "/w/b" (by norm_num [process_pending_files, collectDue, processing_delay])
      rfl
    simpa using h
  · norm_num [process_pending_files, collectDue, processing_delay]

/-- C7: `stop_watching` is a no-op on the registry when the folder id is not
watched, always leaves the folder id unregistered, never touches other
entries, and a subsequent `start_watching` for the same folder id on an
existing path reports `started`. -/
theorem stop_watching_spec (observers : Observers)
    (pathExists : String → Bool) (folder_id : ℤ) (folder_path : String) :
    ((getKey observers folder_id).isSome = false →
        stop_watching observers folder_id = observers)
    ∧ getKey (stop_watching observers folder_id) folder_id = none
    ∧ (∀ k, k ≠ folder_id →
        getKey (stop_watching observers folder_id) k = getKey observers k)
    ∧ (pathExists folder_path = true →
        (start_watching (stop_watching observers folder_id) pathExists
            folder_id folder_path).1 = StartOutcome.started) := by
  have hnone : getKey (stop_watching observers folder_id) folder_id = none := by
    by_cases hlive : (getKey observers folder_id).isSome
    · simp [stop_watching, hlive, getKey_delKey_self]
    · simp only [stop_watching, if_neg hlive]
      exact Option.not_isSome_iff_eq_none.mp hlive
  refine ⟨?_, hnone, ?_, ?_⟩
  · intro hfree; simp [stop_watching, hfree]
  · intro k hk
    by_cases hlive : (getKey observers folder_id).isSome
    · simp [stop_watching, hlive,
        getKey_delKey_ne _ folder_id k (fun h => hk h.symm)]
    · simp [stop_watching, hlive]
  · intro hexists
    simp [start_watching, hnone, hexists]

/-- C7 witness: stopping unwatched folder 3 leaves the registry untouched;
stopping watched folder 7 removes it, spares folder 9, and lets a fresh start
of folder 7 succeed. -/
theorem stop_watching_spec_witness :
    stop_watching [((9 : ℤ), (⟨9, [], "/x"⟩ : ObserverEntry))] 3
        = [((9 : ℤ), (⟨9, [], "/x"⟩ : ObserverEntry))]
    ∧ getKey (stop_watching [((7 : ℤ), (⟨7, [], "/w"⟩ : ObserverEntry)),
          ((9 : ℤ), (⟨9, [], "/x"⟩ : ObserverEntry))] 7) 7 = none
    ∧ getKey (stop_watching [((7 : ℤ), (⟨7, [], "/w"⟩ : ObserverEntry)),
          ((9 : ℤ), (⟨9, [], "/x"⟩ : ObserverEntry))] 7) 9
        = some ⟨9, [], "/x"⟩
    ∧ (start_watching (stop_watching [((7 : ℤ), (⟨7, [], "/w"⟩ : ObserverEntry))] 7)
          (fun _ => true) 7 "/w").1 = StartOutcome.started :=
  ⟨(stop_watching_spec [((9 : ℤ), (⟨9, [], "/x"⟩ : ObserverEntry))]
        (fun _ => true) 3 "/x").1 (by decide),
    (stop_watching_spec [((7 : ℤ), (⟨7, [], "/w"⟩ : ObserverEntry)),
        ((9 : ℤ), (⟨9, [], "/x"⟩ : ObserverEntry))] (fun _ => true) 7 "/w").2.1,
    ((stop_watching_spec [((7 : ℤ), (⟨7, [], "/w"⟩ : ObserverEntry)),
        ((9 : ℤ), (⟨9, [], "/x"⟩ : ObserverEntry))] (fun _ => true) 7
        "/w").2.2.1 9 (by decide)).trans (by decide),
    (stop_watching_spec [((7 : ℤ), (⟨7, [], "/w"⟩ : ObserverEntry))]
        (fun _ => true) 7 "/w").2.2.2 rfl⟩

/-- C8: the UI-percent / engine-decimal round trip is the identity — saving
sends `t / 100` and loading recovers `round(threshold * 100) = t` for every
integer threshold `0 ≤ t ≤ 100`. -/
theorem threshold_round_trip (t : ℤ) (h0 : 0 ≤ t) (h100 : t ≤ 100) :
    loadBackendThreshold (saveThresholdToBackend t) = t := by
  unfold loadBackendThreshold saveThresholdToBackend
  rw [div_mul_cancel₀ _ (by norm_num : (100 : ℚ) ≠ 0)]
  exact round_intCast t

/-- C8 witness: threshold 37% survives the round trip. -/
theorem threshold_round_trip_witness :
    loadBackendThreshold (saveThresholdToBackend 37) = 37 :=
  threshold_round_trip 37 (by norm_num) (by norm_num)

/-- C9: when every folder carrying the target id has status Active or Paused,
one toggle swaps that status (Active↔Paused), leaves every folder with a
different id in the list unchanged, and toggling twice restores the original
list. -/
theorem toggle_folder_involution (folders : List WatchedFolder)
    (folderId : ℕ)
    (h : ∀ f, f ∈ folders → f.id = folderId →
        f.status = "Active" ∨ f.status = "Paused") :
    handleToggleFolderStatus (handleToggleFolderStatus folders folderId)
        folderId = folders
    ∧ (∀ f, f ∈ folders → f.id ≠ folderId →
        f ∈ handleToggleFolderStatus folders folderId)
    ∧ (∀ f, f ∈ folders → f.id = folderId →
        { f with status := toggledStatus f.status }
          ∈ handleToggleFolderStatus folders folderId)
    ∧ toggledStatus "Active" = "Paused"
    ∧ toggledStatus "Paused" = "Active" := by
  refine ⟨?_, ?_, ?_, rfl, rfl⟩
  · induction folders with
    | nil => rfl
    | cons f rest ih =>
        have hf := h f (List.mem_cons_self f rest)
        have hr := ih fun g hg hid => h g (List.mem_cons_of_mem f hg) hid
        simp only [handleToggleFolderStatus, List.map_cons] at hr ⊢
        by_cases hid : f.id = folderId
        · rcases hf hid with hs | hs
          · cases f; simp_all [toggledStatus]
          · cases f; simp_all [toggledStatus]
        · simp [hid, hr]
  · intro f hf hne
    exact List.mem_map.mpr ⟨f, hf, by simp [hne]⟩
  · intro f hf hid
    exact List.mem_map.mpr ⟨f, hf, by simp [hid]⟩

/-- C9 witness: toggling folder 1 twice in a two-folder list restores the
list, and one toggle pauses the active folder 1 while folder 2 stays put. -/
theorem toggle_folder_involution_witness :
    handleToggleFolderStatus (handleToggleFolderStatus
        [⟨1, "Downloads", "/d", "Active"⟩, ⟨2, "Desktop", "/t", "Paused"⟩] 1) 1
      = [⟨1, "Downloads", "/d", "Active"⟩, ⟨2, "Desktop", "/t", "Paused"⟩]
    ∧ (⟨1, "Downloads", "/d", "Paused"⟩ : WatchedFolder)
        ∈ handleToggleFolderStatus
            [⟨1, "Downloads", "/d", "Active"⟩,
              ⟨2, "Desktop", "/t", "Paused"⟩] 1
    ∧ (⟨2, "Desktop", "/t", "Paused"⟩ : WatchedFolder)
        ∈ handleToggleFolderStatus
            [⟨1, "Downloads", "/d", "Active"⟩,
              ⟨2, "Desktop", "/t", "Paused"⟩] 1 := by
  refine ⟨?_, ?_, ?_⟩
  · exact (toggle_folder_involution
      [⟨1, "Downloads", "/d", "Active"⟩, ⟨2, "Desktop", "/t", "Paused"⟩] 1
      (by decide)).1
  · have h := (toggle_folder_involution
      [⟨1, "Downloads", "/d", "Active"⟩, ⟨2, "Desktop", "/t", "Paused"⟩] 1
      (by decide)).2.2.1 ⟨1, "Downloads", "/d", "Active"⟩ (by decide) rfl
    simpa [toggledStatus] using h
  · exact (toggle_folder_involution
      [⟨1, "Downloads", "/d", "Active"⟩, ⟨2, "Desktop", "/t", "Paused"⟩] 1
      (by decide)).2.1 ⟨2, "Desktop", "/t", "Paused"⟩ (by decide) (by decide)

/-- Filtering an association map can only lose keys: a key still present after
`List.filter` was present before. -/
theorem getKey_filter_isSome {κ ν : Type} [DecidableEq κ]
    (d : List (κ × ν)) (pred : κ × ν → Bool) (q : κ) :
    (getKey (d.filter pred) q).isSome → (getKey d q).isSome := by
  induction d with
  | nil => simp
  | cons hd tl ih =>
      obtain ⟨k, v⟩ := hd
      by_cases hp : pred (k, v) <;> by_cases hk : k = q <;>
        simp_all [List.filter, getKey]

/-- C10: directory events leave the pending set untouched, and under
well-formed events (`is_directory` agreeing with the filesystem) both event
handlers and the periodic scan preserve the invariant that no pending path is
a directory. -/
theorem pending_never_directory (pending : PendingMap) (event : FsEvent)
    (now : ℚ) (isDir : String → Bool)
    (hinv : ∀ p, (getKey pending p).isSome → isDir p = false)
    (hev : event.is_directory = isDir event.src_path) :
    (event.is_directory = true →
        on_created pending event now = pending
        ∧ on_modified pending event now = pending)
    ∧ (∀ p, (getKey (on_created pending event now) p).isSome →
        isDir p = false)
    ∧ (∀ p, (getKey (on_modified pending event now) p).isSome →
        isDir p = false)
    ∧ ∀ now2 delay pathExists process_file p,
        (getKey (process_pending_files pending now2 delay pathExists
            process_file).newPending p).isSome → isDir p = false := by
  have hsrc : event.is_directory = false → isDir event.src_path = false :=
    fun hd => hd ▸ hev.symm
  refine ⟨?_, ?_, ?_, ?_⟩
  · intro hdir
    exact ⟨by simp [on_created, hdir], by simp [on_modified, hdir]⟩
  · intro p hp
    by_cases hdir : event.is_directory
    · exact hinv p (by simpa [on_created, hdir] using hp)
    · rw [Bool.not_eq_true] at hdir
      simp only [on_created, hdir, Bool.false_eq_true, if_false] at hp
      rcases getKey_setKey_isSome pending event.src_path now p hp with h | h
      · exact hinv p h
      · rw [h]; exact hsrc hdir
  · intro p hp
    by_cases hdir : event.is_directory
    · exact hinv p (by simpa [on_modified, hdir] using hp)
    · rw [Bool.not_eq_true] at hdir
      simp only [on_modified, hdir, Bool.false_eq_true, if_false] at hp
      by_cases hpend : (getKey pending event.src_path).isSome
      · rw [if_pos hpend] at hp
        rcases getKey_setKey_isSome pending event.src_path now p hp with h | h
        · exact hinv p h
        · rw [h]; exact hsrc hdir
      · rw [if_neg hpend] at hp
        exact hinv p hp
  · intro now2 delay pathExists process_file p hp
    simp only [process_pending_files, collectDue_eq_filter] at hp
    exact hinv p (getKey_filter_isSome _ _ _ hp)

/-- C10 witness: with `a.txt` pending and a create event for the file
`b.txt`, every pending path — including the fresh one — is a non-directory
under the filesystem map sending only `/w/dir` to a directory. -/
theorem pending_never_directory_witness :
    (fun s => decide (s = "/w/dir")) "/w/b.txt" = false :=
  (pending_never_directory [("/w/a.txt", 1)] ⟨"/w/b.txt", false⟩ 2
      (fun s => decide (s = "/w/dir"))
      (fun p hp => by
        by_cases hk : "/w/a.txt" = p
        · subst hk; rfl
        · simp [getKey, hk] at hp)
      rfl).2.1 "/w/b.txt" (by simp [on_created, setKey, getKey])

end LeoLogic
